import Mathlib

/-!
Shallow embedding of the market-data aggregation engine of
`src/web_dashboard.py` (a FastAPI dashboard over Binance futures public
endpoints), together with theorems settling the frozen claims about it.

Numeric fields that the Python code parses with `float(...)` and then only
compares, adds, multiplies and divides are modelled as exact rationals `ℚ`;
the one place where IEEE non-finiteness matters to the code (the
`math.isinf` / `math.isnan` test on the long/short ratio, line 60) is
modelled by the explicit `PyFloat` type below, which separates finite
values from `inf`, `-inf` and `nan`.

Network effects are modelled by passing each upstream response in as an
explicit value of a response type (`LsResponse`, `Upstream`, ...);
`Except`-style alternatives encode a call that raises.  The process-wide
cache dictionary `_cache` is modelled per key: each fetch function takes
the entry stored under its own cache key (an `Option` of the stored
record) and returns the updated entry next to its result, mirroring the
read and the write that the Python function performs on `_cache`.
-/

namespace WebDashboard

/-- A Python float as the code observes it: either a finite value (exact,
as a rational) or one of the non-finite IEEE values. -/
inductive PyFloat where
  | fin (q : ℚ)
  | inf
  | ninf
  | nan
deriving DecidableEq, Repr

/-- Model of `math.isinf` (true on both infinities). -/
def PyFloat.isinf : PyFloat → Bool
  | .inf => true
  | .ninf => true
  | _ => false

/-- Model of `math.isnan`. -/
def PyFloat.isnan : PyFloat → Bool
  | .nan => true
  | _ => false

/-! ## String helpers

Kernel-evaluable models of the two Python string operations the code uses,
defined over the character list (`String.endsWith` and `String.replace`
from the Lean core library do not reduce on concrete inputs). -/

/-- Model of Python `str.endswith` (line 124). -/
def strEndsWith (s suffix : String) : Bool :=
  suffix.data.isSuffixOf s.data

/-- Replace every occurrence of `pat` in the character list, scanning left
to right (the semantics of Python `str.replace` for a non-empty pattern). -/
def replaceChars (pat repl : List Char) : List Char → List Char
  | [] => []
  | c :: rest =>
    if pat.isPrefixOf (c :: rest) && !pat.isEmpty then
      repl ++ replaceChars pat repl (rest.drop (pat.length - 1))
    else c :: replaceChars pat repl rest
termination_by s => s.length
decreasing_by
  · simp only [List.length_cons, List.length_drop]
    omega
  · simp only [List.length_cons]
    omega

/-- Model of Python `str.replace` (lines 152, 209, 373) for a non-empty
pattern. -/
def pyReplace (s pat repl : String) : String :=
  ⟨replaceChars pat.data repl.data s.data⟩

/-! ## Long/short-ratio batch fetcher (`fetch_ls_ratio_batch`, lines 40-77) -/

/-- One row of the `globalLongShortAccountRatio` payload, with the fields
`fetch_single` reads (lines 58, 62, 63); a missing key is modelled by the
default value `0` that `dict.get` supplies there. -/
structure LsRow where
  longShortRatio : PyFloat
  longAccount : ℚ
  shortAccount : ℚ
deriving DecidableEq, Repr

/-- The parsed JSON body of one per-symbol response: either not a list
(the `isinstance(data, list)` guard on line 57 fails) or a list of rows. -/
inductive LsPayload where
  | nonList
  | list (rows : List LsRow)
deriving DecidableEq, Repr

/-- The outcome of the HTTP GET issued by `fetch_single` for one symbol:
`failure` covers a request exception or any error raised while parsing
(swallowed by the bare `except` on line 65); `ok` carries the status code
and parsed body. -/
inductive LsResponse where
  | failure
  | ok (status : Nat) (payload : LsPayload)
deriving DecidableEq, Repr

/-- The per-symbol record stored in the result map (line 64). -/
structure LsEntry where
  ratio : PyFloat
  long : ℚ
  short : ℚ
deriving DecidableEq, Repr

/-- Lines 58-61: the fetched ratio, with an infinite or NaN value replaced
by the sentinel `9999.0`. -/
def sanitizeRatio (r : PyFloat) : PyFloat :=
  if r.isinf || r.isnan then .fin 9999 else r

/-- Model of the inner coroutine `fetch_single` (lines 51-66) for one
symbol, as a function from that symbol's response to the optional entry it
stores: `none` exactly when the code stores nothing for the symbol (request
exception, non-200 status, non-list payload, or empty list). -/
def fetch_single (resp : LsResponse) : Option LsEntry :=
  match resp with
  | .failure => none
  | .ok status payload =>
    if status = 200 then
      match payload with
      | .list (row :: _) =>
        some { ratio := sanitizeRatio row.longShortRatio
             , long := row.longAccount * 100
             , short := row.shortAccount * 100 }
      | _ => none
    else none

/-- Python dict assignment `d[k] = v`: overwrite in place if the key is
present, else append. -/
def dictSet {V : Type} : List (String × V) → String → V → List (String × V)
  | [], k, v => [(k, v)]
  | (k', v') :: rest, k, v =>
    if k' = k then (k, v) :: rest else (k', v') :: dictSet rest k v

/-- Python dict lookup `d.get(k)`. -/
def dictGet {V : Type} : List (String × V) → String → Option V
  | [], _ => none
  | (k', v) :: rest, k => if k' = k then some v else dictGet rest k

/-- The `result` dict after all `fetch_single` tasks of one batch have run
(lines 48, 70-71): each symbol of the input list writes its own entry when
its fetch succeeds.  `resps` gives the response each symbol's GET would
produce. -/
def lsBatchRun (symbols : List String) (resps : String → LsResponse) :
    List (String × LsEntry) :=
  symbols.foldl
    (fun acc sym =>
      match fetch_single (resps sym) with
      | some e => dictSet acc sym e
      | none => acc)
    []

/-- The record stored under the `"ls_ratio_batch"` cache key (line 73). -/
structure LsCacheEntry where
  data : List (String × LsEntry)
  ts : ℚ
deriving DecidableEq, Repr

/-- Model of `fetch_ls_ratio_batch` (lines 40-77): given the current cache
entry for its key and the wall clock `now`, return the result map and the
new cache entry.  A fresh cache entry (younger than 300 s) short-circuits
the batch (lines 44-45); otherwise the batch runs and the cache is written
only when the result dict is non-empty (`if result:` on line 72). -/
def fetch_ls_ratio_batch (cache : Option LsCacheEntry) (now : ℚ)
    (symbols : List String) (resps : String → LsResponse) :
    List (String × LsEntry) × Option LsCacheEntry :=
  match cache with
  | some e =>
    if now - e.ts < 300 then (e.data, some e)
    else
      let result := lsBatchRun symbols resps
      if result = [] then (result, some e) else (result, some ⟨result, now⟩)
  | none =>
    let result := lsBatchRun symbols resps
    if result = [] then (result, none) else (result, some ⟨result, now⟩)

/-! ## Snapshot aggregator (`fetch_binance_tickers`, lines 80-182) -/

/-- One record of the 24h-ticker payload, with the fields the code reads
(lines 123-124, 134, 153-158). -/
structure Ticker where
  symbol : String
  lastPrice : ℚ
  priceChangePercent : ℚ
  highPrice : ℚ
  lowPrice : ℚ
  quoteVolume : ℚ
  count : ℤ
deriving DecidableEq, Repr

/-- One record of the premium/funding-index payload (`funding_map` values,
lines 112, 126-127, 159-160); a key missing from the raw dict is modelled
by the default `0` that `dict.get` supplies at every use site. -/
structure FundingRec where
  symbol : String
  lastFundingRate : ℚ
  nextFundingTime : ℤ
deriving DecidableEq, Repr

/-- One record of the funding-interval metadata payload (line 116); a
non-list payload makes `interval_map` empty, which behaves exactly like the
empty record list here. -/
structure InfoRec where
  symbol : String
  fundingIntervalHours : ℤ
deriving DecidableEq, Repr

/-- One kline of the reference-pair daily candles; `quoteVolume` is index 7
of the raw kline array (lines 107-108). -/
structure Kline where
  quoteVolume : ℚ
deriving DecidableEq, Repr

/-- The dict comprehension on line 112 keyed by symbol: on duplicate
symbols the later record wins, hence the lookup scans the reversed list. -/
def fundingLookup (fd : List FundingRec) (sym : String) : Option FundingRec :=
  fd.reverse.find? (fun r => r.symbol == sym)

/-- `f_info.get("nextFundingTime", 0)` where `f_info` is the funding-map
entry or `{}` (lines 125-126, 160). -/
def nextFundingTimeOf (fd : List FundingRec) (sym : String) : ℤ :=
  match fundingLookup fd sym with
  | some r => r.nextFundingTime
  | none => 0

/-- `float(f_info.get("lastFundingRate", 0))` (lines 127, 159). -/
def lastFundingRateOf (fd : List FundingRec) (sym : String) : ℚ :=
  match fundingLookup fd sym with
  | some r => r.lastFundingRate
  | none => 0

/-- `interval_map.get(sym, 8)` over the dict comprehension of line 116
(used on line 148); the default funding interval is 8 hours. -/
def intervalOf (info : List InfoRec) (sym : String) : ℤ :=
  match info.reverse.find? (fun r => r.symbol == sym) with
  | some r => r.fundingIntervalHours
  | none => 8

/-- One iteration of the classification loop (lines 122-132): a ticker is
appended to `other_pairs` when it passes the USDT-suffix and liquidity
checks, its funding record is live (`nextFundingTime > 0`) and its funding
rate is exactly zero; to `usdt_pairs` when the rate is non-zero; otherwise
it is dropped. -/
def classifyStep (fd : List FundingRec) (acc : List Ticker × List Ticker)
    (t : Ticker) : List Ticker × List Ticker :=
  if strEndsWith t.symbol "USDT" && decide (1000000 < t.quoteVolume) then
    if decide (0 < nextFundingTimeOf fd t.symbol) then
      if lastFundingRateOf fd t.symbol = 0 then (acc.1, acc.2 ++ [t])
      else (acc.1 ++ [t], acc.2)
    else acc
  else acc

/-- The full classification loop: `(usdt_pairs, other_pairs)` after lines
120-132 have run over the whole ticker payload. -/
def classifyTickers (fd : List FundingRec) (data : List Ticker) :
    List Ticker × List Ticker :=
  data.foldl (classifyStep fd) ([], [])

/-- The eligibility test of lines 124-126 as a single predicate. -/
def eligibleB (fd : List FundingRec) (t : Ticker) : Bool :=
  strEndsWith t.symbol "USDT" && decide (1000000 < t.quoteVolume)
    && decide (0 < nextFundingTimeOf fd t.symbol)

/-- Eligible with a non-zero funding rate: lands in `usdt_pairs`. -/
def isMainB (fd : List FundingRec) (t : Ticker) : Bool :=
  eligibleB fd t && !(decide (lastFundingRateOf fd t.symbol = 0))

/-- Eligible with a funding rate of exactly zero: lands in `other_pairs`. -/
def isOtherB (fd : List FundingRec) (t : Ticker) : Bool :=
  eligibleB fd t && decide (lastFundingRateOf fd t.symbol = 0)

/-- Stable insertion into a list already sorted by descending key: the new
element goes in front of the first strictly smaller key and behind every
earlier element with an equal or larger key. -/
def insertDesc {α : Type} (key : α → ℚ) (x : α) : List α → List α
  | [] => [x]
  | y :: ys => if key y ≤ key x then x :: y :: ys else y :: insertDesc key x ys

/-- Stable descending sort by a rational key: the semantics of Python
`list.sort(key=..., reverse=True)` (lines 134, 137), which Python
guarantees to be stable. -/
def sortDesc {α : Type} (key : α → ℚ) : List α → List α
  | [] => []
  | x :: xs => insertDesc key x (sortDesc key xs)

/-- `usdt_pairs` sorted by descending 24h percent change (lines 134-135). -/
def mainTickers (fd : List FundingRec) (data : List Ticker) : List Ticker :=
  sortDesc (fun t => t.priceChangePercent) (classifyTickers fd data).1

/-- `other_pairs` sorted by descending 24h percent change (lines 137-138). -/
def otherTickers (fd : List FundingRec) (data : List Ticker) : List Ticker :=
  sortDesc (fun t => t.priceChangePercent) (classifyTickers fd data).2

/-- One row of the final snapshot lists (lines 150-163). -/
structure Row where
  rank : ℕ
  symbol : String
  price : ℚ
  change24h : ℚ
  high24h : ℚ
  low24h : ℚ
  volume24h : ℚ
  trades : ℤ
  fundingRate : ℚ
  nextFundingTime : ℤ
  fundingInterval : ℤ
  lsRatio : LsEntry
deriving DecidableEq, Repr

/-- Model of the inner `map_result` (lines 143-164): enumerate the sorted
tickers, join each against the funding map, interval map and long/short
map (with the zero default of line 149), assign the 1-based rank and
insert the display separator into the symbol. -/
def map_result (fd : List FundingRec) (info : List InfoRec)
    (ls : String → Option LsEntry) (items : List Ticker) : List Row :=
  items.enum.map (fun p =>
    { rank := p.1 + 1
    , symbol := pyReplace p.2.symbol "USDT" "/USDT"
    , price := p.2.lastPrice
    , change24h := p.2.priceChangePercent
    , high24h := p.2.highPrice
    , low24h := p.2.lowPrice
    , volume24h := p.2.quoteVolume
    , trades := p.2.count
    , fundingRate := lastFundingRateOf fd p.2.symbol
    , nextFundingTime := nextFundingTimeOf fd p.2.symbol
    , fundingInterval := intervalOf info p.2.symbol
    , lsRatio := (ls p.2.symbol).getD { ratio := .fin 0, long := 0, short := 0 } })

/-- The volume-change proxy from the reference-pair klines (lines 105-110):
defined only when at least two candles arrive and the older volume is
positive, else `0.0`. -/
def volChange : List Kline → ℚ
  | k0 :: k1 :: _ =>
    if 0 < k0.quoteVolume then
      (k1.quoteVolume - k0.quoteVolume) / k0.quoteVolume * 100
    else 0
  | _ => 0

/-- The `final_data` snapshot dict (lines 171-177). -/
structure Snap where
  data : List Row
  other : List Row
  total_volume : ℚ
  volume_change : ℚ
  ts : ℚ
deriving DecidableEq, Repr

/-- Lines 104-177: build the full snapshot from the four fetched payloads
and the long/short-ratio map (the latter passed in as the map
`fetch_ls_ratio_batch` returned, keeping its own cache key out of this
definition). -/
def buildSnapshot (now : ℚ) (data : List Ticker) (fd : List FundingRec)
    (info : List InfoRec) (klines : List Kline)
    (ls : String → Option LsEntry) : Snap :=
  { data := map_result fd info ls (mainTickers fd data)
  , other := map_result fd info ls (otherTickers fd data)
  , total_volume :=
      (((classifyTickers fd data).1 ++ (classifyTickers fd data).2).map
        (fun t => t.quoteVolume)).sum
  , volume_change := volChange klines
  , ts := now }

/-- The four concurrent upstream fetches of lines 93-98, each recorded as
its parsed payload or an error (`asyncio.gather` without
`return_exceptions` re-raises the first exception, so any single error
sends the whole `try` block of lines 91-179 to the handler). -/
structure Upstream where
  tickers : Except Unit (List Ticker)
  funding : Except Unit (List FundingRec)
  fundingInfo : Except Unit (List InfoRec)
  klines : Except Unit (List Kline)

/-- Whether an upstream call returned a payload. -/
def exceptOk {α : Type} : Except Unit α → Bool
  | .ok _ => true
  | .error _ => false

/-- All four fetches of one refresh cycle succeeded. -/
def Upstream.allOk (u : Upstream) : Bool :=
  exceptOk u.tickers && exceptOk u.funding && exceptOk u.fundingInfo
    && exceptOk u.klines

/-- What `fetch_binance_tickers` returns: a full snapshot dict, or the
`{"data": [], "other": []}` cold-cache default of line 182 (which carries
no volume keys and no timestamp). -/
inductive SnapResult where
  | full (s : Snap)
  | empty
deriving DecidableEq, Repr

/-- The refresh cycle: the `try` block of lines 91-179 plus the `except`
handler of lines 180-182.  If all four fetches succeed the snapshot is
built, returned and written to the cache; any failure falls to the handler,
which returns the cached entry unchanged (or the empty default) and writes
nothing. -/
def fetchCycle (cache : Option Snap) (now : ℚ) (up : Upstream)
    (ls : String → Option LsEntry) : SnapResult × Option Snap :=
  match up.tickers, up.funding, up.fundingInfo, up.klines with
  | .ok data, .ok fd, .ok info, .ok kl =>
    let s := buildSnapshot now data fd info kl ls
    (.full s, some s)
  | _, _, _, _ =>
    match cache with
    | some e => (.full e, some e)
    | none => (.empty, none)

/-- Model of `fetch_binance_tickers` (lines 80-182): a cache entry younger
than `_cache_ttl = 10` seconds is returned as is (lines 84-85), otherwise
a refresh cycle runs. -/
def fetch_binance_tickers (cache : Option Snap) (now : ℚ) (up : Upstream)
    (ls : String → Option LsEntry) : SnapResult × Option Snap :=
  match cache with
  | some e =>
    if now - e.ts < 10 then (.full e, some e) else fetchCycle (some e) now up ls
  | none => fetchCycle none now up ls

/-- The JSON content built by the `/api/binance/tickers` endpoint (lines
222-232), minus the wall-clock `ts` field: each field is read from the
returned dict with `.get` and the defaults `[]`, `[]`, `0`, `0.0`. -/
structure ApiTickersContent where
  exchange : String
  data : List Row
  other : List Row
  total_volume : ℚ
  volume_change : ℚ
deriving DecidableEq, Repr

/-- Model of `api_binance_tickers` (lines 222-232) applied to what
`fetch_binance_tickers` returned; it never produces an error value. -/
def api_binance_tickers (r : SnapResult) : ApiTickersContent :=
  match r with
  | .full s =>
    { exchange := "Binance", data := s.data, other := s.other
    , total_volume := s.total_volume, volume_change := s.volume_change }
  | .empty =>
    { exchange := "Binance", data := [], other := [], total_volume := 0
    , volume_change := 0 }

/-! ## Fear/greed fetch (`fetch_fear_and_greed`, lines 234-269) -/

/-- One day of the fear/greed payload (`value` is parsed with `int`). -/
structure FngDay where
  value : ℤ
  valueClass : String
deriving DecidableEq, Repr

/-- The dict built on lines 252-264. -/
structure FngResult where
  value : ℤ
  valueClass : String
  change24h : ℚ
deriving DecidableEq, Repr

/-- Lines 248-264: the result built from the payload's day list — with two
or more days the 24h change is `(today - yesterday)/yesterday*100` guarded
by `val_yesterday > 0`, with exactly one day it is `0.0`, and an empty or
malformed payload yields the neutral default. -/
def fngOfPayload : List FngDay → FngResult
  | d0 :: d1 :: _ =>
    { value := d0.value
    , valueClass := d0.valueClass
    , change24h :=
        if 0 < d1.value then ((d0.value : ℚ) - (d1.value : ℚ)) / (d1.value : ℚ) * 100
        else 0 }
  | [d0] => { value := d0.value, valueClass := d0.valueClass, change24h := 0 }
  | [] => { value := 50, valueClass := "Neutral", change24h := 0 }

/-! ## Heuristic backtest metrics (`api_grid_backtest`, lines 348-369) -/

/-- The per-symbol numbers computed by the backtest endpoint. -/
structure GridMetrics where
  volatility : ℚ
  base_apr : ℚ
  long_apr : ℚ
  short_apr : ℚ
deriving DecidableEq, Repr

/-- Lines 349-369 for one whitelisted symbol: volatility from the 24h
high/low, the heuristic base APR, and the long/short APRs clamped with
`max(-80.0, min(x, 450.0))`. -/
def gridBacktestMetrics (high low change : ℚ) : GridMetrics :=
  let volatility : ℚ := if 0 < low then (high - low) / low * 100 else 0
  let base_apr := volatility * 12
  let long_apr := base_apr + change * 15
  let short_apr := base_apr - change * 15
  { volatility := volatility
  , base_apr := base_apr
  , long_apr := max (-80) (min long_apr 450)
  , short_apr := max (-80) (min short_apr 450) }

/-- Modelled from the wording of the spec for comparison with the code:
`clamp(x, lo, hi)` with inclusive bounds. -/
def specClamp (x lo hi : ℚ) : ℚ :=
  if x < lo then lo else if hi < x then hi else x

/-! ## Concrete inputs used by witnesses and the counterexample -/

/-- A concrete response environment for the C7 witness: the first symbol's
request raises, the second succeeds. -/
def respsC7 : String → LsResponse := fun s =>
  if s = "ETHUSDT" then
    .ok 200 (.list [{ longShortRatio := .fin 2, longAccount := 1, shortAccount := 1 }])
  else .failure

/-- An eligible concrete ticker for the C2 counterexample. -/
def tickC2 : Ticker :=
  { symbol := "BTCUSDT", lastPrice := 100, priceChangePercent := 5
  , highPrice := 110, lowPrice := 90, quoteVolume := 2000000, count := 10 }

/-- Its live funding record. -/
def fundC2 : FundingRec :=
  { symbol := "BTCUSDT", lastFundingRate := 1, nextFundingTime := 100 }

/-- An upstream cycle in which the ticker, funding and interval fetches
succeed but the reference-pair kline fetch raises. -/
def upC2 : Upstream :=
  { tickers := .ok [tickC2], funding := .ok [fundC2]
  , fundingInfo := .ok [], klines := .error () }

/-- Funding records for the C4 witness: four live symbols with rates
`[1, 0, -2, 0]`. -/
def fdC4 : List FundingRec :=
  [ { symbol := "AUSDT", lastFundingRate := 1, nextFundingTime := 100 }
  , { symbol := "BUSDT", lastFundingRate := 0, nextFundingTime := 100 }
  , { symbol := "CUSDT", lastFundingRate := -2, nextFundingTime := 100 }
  , { symbol := "DUSDT", lastFundingRate := 0, nextFundingTime := 100 } ]

/-- Four eligible tickers for the C4 witness. -/
def dataC4 : List Ticker :=
  [ { symbol := "AUSDT", lastPrice := 1, priceChangePercent := 4, highPrice := 1
    , lowPrice := 1, quoteVolume := 2000000, count := 1 }
  , { symbol := "BUSDT", lastPrice := 1, priceChangePercent := 3, highPrice := 1
    , lowPrice := 1, quoteVolume := 2000000, count := 1 }
  , { symbol := "CUSDT", lastPrice := 1, priceChangePercent := 2, highPrice := 1
    , lowPrice := 1, quoteVolume := 2000000, count := 1 }
  , { symbol := "DUSDT", lastPrice := 1, priceChangePercent := 1, highPrice := 1
    , lowPrice := 1, quoteVolume := 2000000, count := 1 } ]

/-! ## Dictionary lemmas -/

theorem dictGet_dictSet_self {V : Type} (l : List (String × V)) (k : String) (v : V) :
    dictGet (dictSet l k v) k = some v := by
  induction l with
  | nil => simp [dictSet, dictGet]
  | cons p rest ih =>
    obtain ⟨k', v'⟩ := p
    by_cases h : k' = k <;> simp [dictSet, dictGet, h, ih]

theorem dictGet_dictSet_ne {V : Type} (l : List (String × V)) (k k' : String) (v : V)
    (h : k' ≠ k) : dictGet (dictSet l k v) k' = dictGet l k' := by
  have h' : ¬ k = k' := fun hh => h hh.symm
  induction l with
  | nil => simp [dictSet, dictGet, h']
  | cons p rest ih =>
    obtain ⟨k₀, v₀⟩ := p
    by_cases h0 : k₀ = k
    · subst h0
      simp [dictSet, dictGet, h']
    · simp [dictSet, dictGet, h0, ih]

/-- Lookup in the batch result map: a symbol of the input list gets exactly
what its own `fetch_single` produced; any other key is absent. -/
theorem lsBatchRun_lookup (symbols : List String) (resps : String → LsResponse)
    (sym : String) :
    dictGet (lsBatchRun symbols resps) sym =
      if sym ∈ symbols then fetch_single (resps sym) else none := by
  have go : ∀ (l : List String) (acc : List (String × LsEntry)),
      dictGet (l.foldl
        (fun acc s =>
          match fetch_single (resps s) with
          | some e => dictSet acc s e
          | none => acc) acc) sym =
        if sym ∈ l ∧ (fetch_single (resps sym)).isSome
        then fetch_single (resps sym) else dictGet acc sym := by
    intro l
    induction l with
    | nil => intro acc; simp
    | cons t rest ih =>
      intro acc
      simp only [List.foldl_cons, ih]
      by_cases hts : t = sym
      · subst hts
        cases hfs : fetch_single (resps t) with
        | none => simp [hfs]
        | some e =>
          by_cases hmem : t ∈ rest
          · simp [hfs, hmem]
          · simp [hfs, hmem, dictGet_dictSet_self]
      · have hne : sym ≠ t := Ne.symm hts
        cases hfs : fetch_single (resps t) with
        | none => simp [hfs, hne]
        | some e => simp [hfs, hne, dictGet_dictSet_ne acc t sym e hne]
  unfold lsBatchRun
  rw [go symbols []]
  by_cases hmem : sym ∈ symbols
  · cases hfs : fetch_single (resps sym) with
    | none => simp [hmem, hfs, dictGet]
    | some e => simp [hmem, hfs]
  · simp [hmem, dictGet]

/-- A batch in which every symbol's fetch fails produces the empty result
dict. -/
theorem lsBatchRun_all_failed (symbols : List String) (resps : String → LsResponse)
    (h : ∀ s ∈ symbols, fetch_single (resps s) = none) :
    lsBatchRun symbols resps = [] := by
  have go : ∀ (l : List String), (∀ s ∈ l, fetch_single (resps s) = none) →
      ∀ acc, l.foldl
        (fun acc s =>
          match fetch_single (resps s) with
          | some e => dictSet acc s e
          | none => acc) acc = acc := by
    intro l
    induction l with
    | nil => intro _ acc; simp
    | cons t rest ih =>
      intro hl acc
      have ht : fetch_single (resps t) = none := hl t (List.mem_cons_self t rest)
      simp only [List.foldl_cons, ht]
      exact ih (fun s hs => hl s (List.mem_cons_of_mem t hs)) acc
  unfold lsBatchRun
  exact go symbols h []

/-! ## Classification lemmas -/

/-- One loop iteration appends the ticker to the main accumulator, to the
other accumulator, or to neither, according to the two predicates. -/
theorem classifyStep_eq (fd : List FundingRec) (a b : List Ticker) (t : Ticker) :
    classifyStep fd (a, b) t =
      (a ++ if isMainB fd t then [t] else [],
       b ++ if isOtherB fd t then [t] else []) := by
  cases hend : strEndsWith t.symbol "USDT" with
  | false => simp [classifyStep, isMainB, isOtherB, eligibleB, hend]
  | true =>
    cases hvol : decide (1000000 < t.quoteVolume) with
    | false => simp [classifyStep, isMainB, isOtherB, eligibleB, hend, hvol]
    | true =>
      cases hnft : decide (0 < nextFundingTimeOf fd t.symbol) with
      | false => simp [classifyStep, isMainB, isOtherB, eligibleB, hend, hvol, hnft]
      | true =>
        by_cases hrate : lastFundingRateOf fd t.symbol = 0 <;>
          simp [classifyStep, isMainB, isOtherB, eligibleB, hend, hvol, hnft, hrate]

/-- The classification loop is the pair of filters by the two predicates. -/
theorem classifyTickers_eq (fd : List FundingRec) (data : List Ticker) :
    classifyTickers fd data =
      (data.filter (isMainB fd), data.filter (isOtherB fd)) := by
  have go : ∀ (l : List Ticker) (a b : List Ticker),
      l.foldl (classifyStep fd) (a, b) =
        (a ++ l.filter (isMainB fd), b ++ l.filter (isOtherB fd)) := by
    intro l
    induction l with
    | nil => intro a b; simp
    | cons t rest ih =>
      intro a b
      rw [List.foldl_cons, classifyStep_eq, ih]
      cases hm : isMainB fd t <;> cases ho : isOtherB fd t <;>
        simp [List.filter_cons, hm, ho]
  unfold classifyTickers
  rw [go data [] []]
  simp

/-! ## Sorting lemmas -/

theorem mem_insertDesc {α : Type} (key : α → ℚ) (x : α) (l : List α) (y : α) :
    y ∈ insertDesc key x l ↔ y = x ∨ y ∈ l := by
  induction l with
  | nil => simp [insertDesc]
  | cons z zs ih =>
    by_cases hle : key z ≤ key x
    · simp [insertDesc, hle]
    · simp [insertDesc, hle, ih]
      tauto

theorem mem_sortDesc {α : Type} (key : α → ℚ) (l : List α) (y : α) :
    y ∈ sortDesc key l ↔ y ∈ l := by
  induction l with
  | nil => simp [sortDesc]
  | cons x xs ih => simp [sortDesc, mem_insertDesc, ih]

theorem pairwise_insertDesc {α : Type} (key : α → ℚ) (x : α) (l : List α)
    (h : l.Pairwise (fun a b => key b ≤ key a)) :
    (insertDesc key x l).Pairwise (fun a b => key b ≤ key a) := by
  induction l with
  | nil => simp [insertDesc]
  | cons y ys ih =>
    rw [List.pairwise_cons] at h
    obtain ⟨hy, hys⟩ := h
    by_cases hle : key y ≤ key x
    · simp only [insertDesc, if_pos hle]
      rw [List.pairwise_cons]
      refine ⟨fun z hz => ?_, ?_⟩
      · rcases List.mem_cons.mp hz with rfl | hz'
        · exact hle
        · exact le_trans (hy z hz') hle
      · rw [List.pairwise_cons]
        exact ⟨hy, hys⟩
    · simp only [insertDesc, if_neg hle]
      rw [List.pairwise_cons]
      refine ⟨fun z hz => ?_, ih hys⟩
      rcases (mem_insertDesc key x ys z).mp hz with rfl | hz'
      · exact le_of_not_le hle
      · exact hy z hz'

/-- The output of the stable descending sort is sorted: every element is
greater than or equal to everything after it. -/
theorem sortDesc_pairwise {α : Type} (key : α → ℚ) (l : List α) :
    (sortDesc key l).Pairwise (fun a b => key b ≤ key a) := by
  induction l with
  | nil => simp [sortDesc]
  | cons x xs ih => exact pairwise_insertDesc key x (sortDesc key xs) ih

/-- Inserting an element does not disturb the subsequence of any fixed key
value, except for putting the new element in front when it has that key:
the core of stability. -/
theorem filter_key_insertDesc {α : Type} (key : α → ℚ) (c : ℚ) (x : α) (l : List α) :
    (insertDesc key x l).filter (fun t => decide (key t = c)) =
      if key x = c then x :: l.filter (fun t => decide (key t = c))
      else l.filter (fun t => decide (key t = c)) := by
  induction l with
  | nil => by_cases h : key x = c <;> simp [insertDesc, h]
  | cons y ys ih =>
    by_cases hle : key y ≤ key x
    · simp only [insertDesc, if_pos hle]
      by_cases h : key x = c <;> simp [h, List.filter_cons]
    · simp only [insertDesc, if_neg hle]
      by_cases hx : key x = c
      · have hy : ¬ (key y = c) := by
          intro hh
          exact hle (le_of_eq (hh.trans hx.symm))
        simp [List.filter_cons, ih, hx, hy]
      · by_cases hy : key y = c <;> simp [List.filter_cons, ih, hx, hy]

/-- Stability of the sort: the subsequence of elements with any fixed key
value is exactly the same, in the same order, as in the input list. -/
theorem filter_key_sortDesc {α : Type} (key : α → ℚ) (c : ℚ) (l : List α) :
    (sortDesc key l).filter (fun t => decide (key t = c)) =
      l.filter (fun t => decide (key t = c)) := by
  induction l with
  | nil => rfl
  | cons x xs ih =>
    simp only [sortDesc]
    rw [filter_key_insertDesc]
    by_cases h : key x = c <;> simp [h, List.filter_cons, ih]

/-! ## Refresh-cycle fallback lemma (shared by C1 and C2) -/

/-- When any of the four fetches of a refresh cycle errors, the cycle falls
to the `except` handler: the cached snapshot (or the empty default) is
returned and the cache is not written. -/
theorem fetchCycle_of_not_allOk (c : Option Snap) (now : ℚ) (up : Upstream)
    (ls : String → Option LsEntry) (hfail : up.allOk = false) :
    fetchCycle c now up ls =
      (match c with
       | some e => (SnapResult.full e, some e)
       | none => (SnapResult.empty, none)) := by
  obtain ⟨ut, uf, ui, uk⟩ := up
  cases ut <;> cases uf <;> cases ui <;> cases uk <;>
    first
      | (cases c <;> rfl)
      | simp [Upstream.allOk, exceptOk] at hfail

/-- Filtering by a conjunction of two boolean predicates is symmetric. -/
theorem filter_and_comm {α : Type} (p q : α → Bool) (l : List α) :
    l.filter (fun a => p a && q a) = l.filter (fun a => q a && p a) := by
  induction l with
  | nil => rfl
  | cons x xs ih =>
    cases hp : p x <;> cases hq : q x <;> simp [List.filter_cons, hp, hq, ih]

/-- The code's `max(-80.0, min(x, 450.0))` agrees with the inclusive clamp
the spec describes, whenever the bounds are ordered. -/
theorem maxmin_eq_specClamp (x lo hi : ℚ) (h : lo ≤ hi) :
    max lo (min x hi) = specClamp x lo hi := by
  unfold specClamp
  by_cases h1 : x < lo
  · rw [if_pos h1, min_eq_left (le_trans h1.le h), max_eq_left h1.le]
  · rw [if_neg h1]
    by_cases h2 : hi < x
    · rw [if_pos h2, min_eq_right h2.le, max_eq_right h]
    · rw [if_neg h2, min_eq_left (not_lt.mp h2), max_eq_right (not_lt.mp h1)]

/-! ## Claim theorems -/

/-- C1: if any failure occurs during a full-snapshot refresh cycle, it is
caught at the cycle boundary and the previously cached snapshot is returned
unchanged (the cache is not modified); on a cold cache the empty default is
returned, which the endpoint serializes with empty main and other lists,
zero total volume and zero volume change — the caller never receives an
error for this path (the model is a total function into the response
type). -/
theorem C1_refresh_failure_fallback (cache : Option Snap) (now : ℚ) (up : Upstream)
    (ls : String → Option LsEntry) (hfail : up.allOk = false) :
    ((fetch_binance_tickers cache now up ls).1 =
      match cache with
      | some e => SnapResult.full e
      | none => SnapResult.empty)
  ∧ (fetch_binance_tickers cache now up ls).2 = cache
  ∧ (cache = none →
      api_binance_tickers (fetch_binance_tickers cache now up ls).1 =
        { exchange := "Binance", data := [], other := [], total_volume := 0
        , volume_change := 0 }) := by
  cases cache with
  | none =>
    simp [fetch_binance_tickers, fetchCycle_of_not_allOk none now up ls hfail,
      api_binance_tickers]
  | some e =>
    by_cases hfresh : now - e.ts < 10 <;>
      simp [fetch_binance_tickers, hfresh,
        fetchCycle_of_not_allOk (some e) now up ls hfail]

/-- Witness for C1: a cold cache and a cycle whose four fetches all raise
produce the empty-but-valid endpoint response. -/
theorem C1_refresh_failure_fallback_witness :
    api_binance_tickers
        (fetch_binance_tickers none 0
          { tickers := .error (), funding := .error (), fundingInfo := .error ()
          , klines := .error () } (fun _ => none)).1 =
      { exchange := "Binance", data := [], other := [], total_volume := 0
      , volume_change := 0 } :=
  (C1_refresh_failure_fallback none 0
    { tickers := .error (), funding := .error (), fundingInfo := .error ()
    , klines := .error () } (fun _ => none) rfl).2.2 rfl

/-- C2 counterexample: a cycle in which the ticker fetch succeeds with an
eligible symbol (the record would be classified into main) but the kline
fetch raises produces no snapshot at all — the cold-cache default comes
back and nothing is cached — refuting the claim that the produced snapshot
incorporates the fresh results of the fetches that succeeded. -/
theorem C2_counterexample :
    exceptOk upC2.tickers = true
  ∧ tickC2 ∈ mainTickers [fundC2] [tickC2]
  ∧ (fetch_binance_tickers none 0 upC2 (fun _ => none)).1 = .empty
  ∧ (fetch_binance_tickers none 0 upC2 (fun _ => none)).2 = none :=
  ⟨rfl, by decide, rfl, rfl⟩

/-- C2 (amended): the refresh cycle is all-or-nothing — the snapshot is
built from the four fresh payloads exactly when all four fetches succeed,
and a failure of any one of them makes the whole cycle fall back to the
cached value (here: the cold-cache empty default), discarding the fetches
that succeeded. -/
theorem C2_amended_cycle_all_or_nothing (now : ℚ) (ls : String → Option LsEntry) :
    (∀ (d : List Ticker) (f : List FundingRec) (i : List InfoRec) (k : List Kline),
      (fetch_binance_tickers none now
        { tickers := .ok d, funding := .ok f, fundingInfo := .ok i, klines := .ok k }
        ls).1 = .full (buildSnapshot now d f i k ls))
  ∧ (∀ up : Upstream, up.allOk = false →
      (fetch_binance_tickers none now up ls).1 = .empty) := by
  constructor
  · intro d f i k
    rfl
  · intro up hfail
    simp [fetch_binance_tickers, fetchCycle_of_not_allOk none now up ls hfail]

/-- Witness for C2 (amended) at concrete cycles, one fully successful and
one with a single failed fetch. -/
theorem C2_amended_cycle_all_or_nothing_witness :
    (fetch_binance_tickers none 0
        { tickers := .ok [], funding := .ok [], fundingInfo := .ok [], klines := .ok [] }
        (fun _ => none)).1 = .full (buildSnapshot 0 [] [] [] [] (fun _ => none))
  ∧ (fetch_binance_tickers none 0
        { tickers := .error (), funding := .ok [], fundingInfo := .ok [], klines := .ok [] }
        (fun _ => none)).1 = .empty :=
  ⟨(C2_amended_cycle_all_or_nothing 0 (fun _ => none)).1 [] [] [] [],
   (C2_amended_cycle_all_or_nothing 0 (fun _ => none)).2
     { tickers := .error (), funding := .ok [], fundingInfo := .ok [], klines := .ok [] }
     rfl⟩

/-- C3: a ticker record of the upstream 24h payload appears in the snapshot
(in main or in other) iff its symbol ends with the suffix "USDT", its quote
volume strictly exceeds 1,000,000 and its matching funding record has
`nextFundingTime > 0` (a missing record counts as 0); every other record
appears in neither list.  The last two conjuncts tie the membership
statement to the snapshot lists themselves. -/
theorem C3_eligibility_filter (fd : List FundingRec) (data : List Ticker)
    (now : ℚ) (info : List InfoRec) (klines : List Kline)
    (ls : String → Option LsEntry) (t : Ticker) (ht : t ∈ data) :
    ((t ∈ mainTickers fd data ∨ t ∈ otherTickers fd data) ↔
      (strEndsWith t.symbol "USDT" = true ∧ 1000000 < t.quoteVolume
        ∧ 0 < nextFundingTimeOf fd t.symbol))
  ∧ (buildSnapshot now data fd info klines ls).data =
      map_result fd info ls (mainTickers fd data)
  ∧ (buildSnapshot now data fd info klines ls).other =
      map_result fd info ls (otherTickers fd data) := by
  refine ⟨?_, rfl, rfl⟩
  unfold mainTickers otherTickers
  rw [classifyTickers_eq]
  simp only [mem_sortDesc, List.mem_filter, isMainB, isOtherB, eligibleB,
    Bool.and_eq_true, decide_eq_true_eq, Bool.not_eq_true', decide_eq_false_iff_not,
    ht, true_and]
  by_cases hrate : lastFundingRateOf fd t.symbol = 0 <;> simp [hrate] <;> tauto

/-- Witness for C3 at a concrete eligible ticker. -/
theorem C3_eligibility_filter_witness :
    tickC2 ∈ mainTickers [fundC2] [tickC2] ∨ tickC2 ∈ otherTickers [fundC2] [tickC2] :=
  ((C3_eligibility_filter [fundC2] [tickC2] 0 [] [] (fun _ => none) tickC2
    (by decide)).1).mpr (by decide)

/-- C4: an eligible ticker lands in the other list iff its funding rate is
exactly zero, and in the main list otherwise. -/
theorem C4_zero_rate_split (fd : List FundingRec) (data : List Ticker) (t : Ticker)
    (ht : t ∈ data)
    (helig : strEndsWith t.symbol "USDT" = true ∧ 1000000 < t.quoteVolume
      ∧ 0 < nextFundingTimeOf fd t.symbol) :
    (t ∈ otherTickers fd data ↔ lastFundingRateOf fd t.symbol = 0)
  ∧ (t ∈ mainTickers fd data ↔ lastFundingRateOf fd t.symbol ≠ 0) := by
  obtain ⟨hend, hvol, hnft⟩ := helig
  unfold mainTickers otherTickers
  rw [classifyTickers_eq]
  simp [mem_sortDesc, List.mem_filter, isMainB, isOtherB, eligibleB,
    ht, hend, hvol, hnft]

/-- Witness for C4: among four eligible symbols with funding rates
`[1, 0, -2, 0]`, a zero-rate symbol lands in other and a non-zero-rate
symbol lands in main (mirroring the shape of the spec's example, with
kernel-evaluable rates). -/
theorem C4_zero_rate_split_witness :
    ({ symbol := "BUSDT", lastPrice := 1, priceChangePercent := 3, highPrice := 1
     , lowPrice := 1, quoteVolume := 2000000, count := 1 } : Ticker) ∈
      otherTickers fdC4 dataC4 :=
  ((C4_zero_rate_split fdC4 dataC4 _ (by decide) (by decide)).1).mpr (by decide)

/-- C5: both output lists are sorted descending by 24h percent price
change, and the sort is stable — for each possible value of the sort key,
the subsequence of the output carrying that key equals the subsequence of
the original upstream ticker list (restricted to the symbols classified
into that list), so symbols with identical `priceChangePercent` keep their
upstream order. -/
theorem C5_sorted_and_stable (fd : List FundingRec) (data : List Ticker) :
    (mainTickers fd data).Pairwise
      (fun a b => b.priceChangePercent ≤ a.priceChangePercent)
  ∧ (otherTickers fd data).Pairwise
      (fun a b => b.priceChangePercent ≤ a.priceChangePercent)
  ∧ (∀ c : ℚ,
      (mainTickers fd data).filter (fun t => decide (t.priceChangePercent = c)) =
        data.filter (fun t => isMainB fd t && decide (t.priceChangePercent = c)))
  ∧ (∀ c : ℚ,
      (otherTickers fd data).filter (fun t => decide (t.priceChangePercent = c)) =
        data.filter (fun t => isOtherB fd t && decide (t.priceChangePercent = c))) := by
  refine ⟨sortDesc_pairwise _ _, sortDesc_pairwise _ _, fun c => ?_, fun c => ?_⟩
  · unfold mainTickers
    rw [classifyTickers_eq]
    rw [filter_key_sortDesc, List.filter_filter]
    exact filter_and_comm _ _ data
  · unfold otherTickers
    rw [classifyTickers_eq]
    rw [filter_key_sortDesc, List.filter_filter]
    exact filter_and_comm _ _ data

/-- C6: for every symbol processed by the long/short-ratio batch fetcher, a
fetched ratio that is infinite (either sign) or NaN is replaced with the
sentinel value exactly 9999.0 before being stored in and returned from the
result map, never propagated as-is; a finite ratio is stored unchanged. -/
theorem C6_ratio_sentinel (resp : LsResponse) (row : LsRow) (rest : List LsRow)
    (h : resp = .ok 200 (.list (row :: rest))) :
    ((row.longShortRatio.isinf || row.longShortRatio.isnan) = true →
      fetch_single resp =
        some { ratio := .fin 9999, long := row.longAccount * 100
             , short := row.shortAccount * 100 })
  ∧ (∀ q : ℚ, row.longShortRatio = .fin q →
      fetch_single resp =
        some { ratio := .fin q, long := row.longAccount * 100
             , short := row.shortAccount * 100 })
  ∧ (∀ (symbols : List String) (resps : String → LsResponse) (sym : String),
      sym ∈ symbols → resps sym = resp →
      (row.longShortRatio.isinf || row.longShortRatio.isnan) = true →
      dictGet (lsBatchRun symbols resps) sym =
        some { ratio := .fin 9999, long := row.longAccount * 100
             , short := row.shortAccount * 100 }) := by
  subst h
  refine ⟨fun hnf => ?_, fun q hq => ?_, fun symbols resps sym hmem hresp hnf => ?_⟩
  · simp [fetch_single, sanitizeRatio, hnf]
  · simp [fetch_single, sanitizeRatio, hq, PyFloat.isinf, PyFloat.isnan]
  · rw [lsBatchRun_lookup, if_pos hmem, hresp]
    simp [fetch_single, sanitizeRatio, hnf]

/-- Witness for C6 at a concrete infinite ratio. -/
theorem C6_ratio_sentinel_witness :
    fetch_single
        (.ok 200 (.list [{ longShortRatio := .inf, longAccount := 1
                         , shortAccount := 1 }])) =
      some { ratio := .fin 9999, long := (1 : ℚ) * 100, short := (1 : ℚ) * 100 } :=
  (C6_ratio_sentinel
    (.ok 200 (.list [{ longShortRatio := .inf, longAccount := 1, shortAccount := 1 }]))
    { longShortRatio := .inf, longAccount := 1, shortAccount := 1 } [] rfl).1
    (by decide)

/-- C7: in the batch fetcher, any error for one symbol (request exception,
non-200 status, malformed payload — all the cases where `fetch_single`
stores nothing) leaves that symbol absent from the result map, and changing
one symbol's response in any way leaves the result of every other symbol
untouched; the batch function itself is total, so no per-symbol error fails
the batch. -/
theorem C7_per_symbol_failure_isolated (symbols : List String)
    (resps : String → LsResponse) (sym : String)
    (hfail : fetch_single (resps sym) = none) :
    dictGet (lsBatchRun symbols resps) sym = none
  ∧ ∀ (resps2 : String → LsResponse), (∀ s, s ≠ sym → resps2 s = resps s) →
      ∀ s, s ≠ sym →
        dictGet (lsBatchRun symbols resps2) s = dictGet (lsBatchRun symbols resps) s := by
  constructor
  · rw [lsBatchRun_lookup]
    by_cases h : sym ∈ symbols <;> simp [h, hfail]
  · intro resps2 hagree s hs
    rw [lsBatchRun_lookup, lsBatchRun_lookup, hagree s hs]

/-- Witness for C7: the failed symbol is omitted from a concrete batch. -/
theorem C7_per_symbol_failure_isolated_witness :
    dictGet (lsBatchRun ["BTCUSDT", "ETHUSDT"] respsC7) "BTCUSDT" = none :=
  (C7_per_symbol_failure_isolated ["BTCUSDT", "ETHUSDT"] respsC7 "BTCUSDT"
    (by decide)).1

/-- C8: with at least two days of data, the fear/greed change is
`(today - yesterday)/yesterday*100` when yesterday is non-zero (index
values are non-negative, so the code's `> 0` guard coincides) and `0.0`
when yesterday is zero; with exactly one day of data the change is
`0.0`. -/
theorem C8_fng_change (d0 d1 : FngDay) (rest : List FngDay) (hnn : 0 ≤ d1.value) :
    (d1.value ≠ 0 →
      (fngOfPayload (d0 :: d1 :: rest)).change24h =
        ((d0.value : ℚ) - (d1.value : ℚ)) / (d1.value : ℚ) * 100)
  ∧ (d1.value = 0 → (fngOfPayload (d0 :: d1 :: rest)).change24h = 0)
  ∧ ∀ d : FngDay, (fngOfPayload [d]).change24h = 0 := by
  refine ⟨fun hne => ?_, fun h0 => ?_, fun d => rfl⟩
  · have hpos : (0 : ℤ) < d1.value := lt_of_le_of_ne hnn (Ne.symm hne)
    simp [fngOfPayload, hpos]
  · simp [fngOfPayload, h0]

/-- Witness for C8: today 70, yesterday 50 gives exactly 40.0. -/
theorem C8_fng_change_witness :
    (fngOfPayload [{ value := 70, valueClass := "Greed" }
                  , { value := 50, valueClass := "Fear" }]).change24h = 40 := by
  rw [(C8_fng_change { value := 70, valueClass := "Greed" }
        { value := 50, valueClass := "Fear" } [] (by norm_num)).1 (by norm_num)]
  norm_num

/-- C9: the heuristic backtest metrics satisfy exactly the spec formulas —
volatility is `(high-low)/low*100` when `low > 0` and 0 otherwise, the base
APR is volatility times 12, and the long/short APRs are the inclusive
clamps of `base ± change*15` into `[-80, 450]`. -/
theorem C9_backtest_formulas (high low change : ℚ) :
    (0 < low → (gridBacktestMetrics high low change).volatility = (high - low) / low * 100)
  ∧ (¬ 0 < low → (gridBacktestMetrics high low change).volatility = 0)
  ∧ (gridBacktestMetrics high low change).base_apr =
      (gridBacktestMetrics high low change).volatility * 12
  ∧ (gridBacktestMetrics high low change).long_apr =
      specClamp ((gridBacktestMetrics high low change).base_apr + change * 15) (-80) 450
  ∧ (gridBacktestMetrics high low change).short_apr =
      specClamp ((gridBacktestMetrics high low change).base_apr - change * 15) (-80) 450
  ∧ (-80 ≤ (gridBacktestMetrics high low change).long_apr
      ∧ (gridBacktestMetrics high low change).long_apr ≤ 450)
  ∧ (-80 ≤ (gridBacktestMetrics high low change).short_apr
      ∧ (gridBacktestMetrics high low change).short_apr ≤ 450) := by
  have hclamp : ∀ x : ℚ, max (-80) (min x 450) = specClamp x (-80) 450 :=
    fun x => maxmin_eq_specClamp x (-80) 450 (by norm_num)
  refine ⟨fun h => ?_, fun h => ?_, ?_, ?_, ?_, ?_, ?_⟩
  · simp [gridBacktestMetrics, h]
  · simp [gridBacktestMetrics, h]
  · simp [gridBacktestMetrics]
  · simp only [gridBacktestMetrics]
    exact hclamp _
  · simp only [gridBacktestMetrics]
    exact hclamp _
  · simp only [gridBacktestMetrics]
    exact ⟨le_max_left _ _, max_le (by norm_num) (min_le_right _ _)⟩
  · simp only [gridBacktestMetrics]
    exact ⟨le_max_left _ _, max_le (by norm_num) (min_le_right _ _)⟩

/-- Witness for C9 at concrete 24h numbers. -/
theorem C9_backtest_formulas_witness :
    (gridBacktestMetrics 110 90 5).volatility = ((110 : ℚ) - 90) / 90 * 100 :=
  (C9_backtest_formulas 110 90 5).1 (by norm_num)

/-- C10: the batch fetcher writes its cache entry only when the result map
is non-empty; a batch in which every per-symbol fetch fails leaves the
cache exactly as it was (a previous entry keeps its old timestamp), and a
call on a cold cache always re-runs the batch rather than serving a cached
empty result. -/
theorem C10_all_failed_batch_preserves_cache (cache : Option LsCacheEntry) (now : ℚ)
    (symbols : List String) (resps : String → LsResponse)
    (hall : ∀ s ∈ symbols, fetch_single (resps s) = none) :
    (fetch_ls_ratio_batch cache now symbols resps).2 = cache
  ∧ ∀ (now2 : ℚ) (resps2 : String → LsResponse),
      (fetch_ls_ratio_batch none now2 symbols resps2).1 = lsBatchRun symbols resps2 := by
  have hempty := lsBatchRun_all_failed symbols resps hall
  constructor
  · match cache with
    | none => simp [fetch_ls_ratio_batch, hempty]
    | some e =>
      by_cases hfresh : now - e.ts < 300 <;>
        simp [fetch_ls_ratio_batch, hfresh, hempty]
  · intro now2 resps2
    by_cases h : lsBatchRun symbols resps2 = [] <;> simp [fetch_ls_ratio_batch, h]

/-- Witness for C10: an all-failed batch leaves a previously cached batch in
place with its old timestamp. -/
theorem C10_all_failed_batch_preserves_cache_witness :
    (fetch_ls_ratio_batch
        (some { data := [("BTCUSDT", { ratio := .fin 1, long := 50, short := 50 })], ts := 0 })
        1000 ["BTCUSDT"] (fun _ => .failure)).2 =
      some { data := [("BTCUSDT", { ratio := .fin 1, long := 50, short := 50 })], ts := 0 } :=
  (C10_all_failed_batch_preserves_cache
    (some { data := [("BTCUSDT", { ratio := .fin 1, long := 50, short := 50 })], ts := 0 })
    1000 ["BTCUSDT"] (fun _ => .failure) (fun _ _ => rfl)).1

end WebDashboard
